import Mathlib

/-!
Shallow embedding of `crates/ra_assists/src/assists/auto_import.rs`:
the auto-import assist of rust-analyzer.  Syntax trees, the semantic
resolver, the symbol index and the edit engine are host capabilities;
they are modelled as abstract data supplied through a context record,
mirroring exactly the queries the assist performs on them.
-/

set_option autoImplicit false

namespace AutoImport

/-- The syntax-node kinds the assist inspects (`ra_syntax::SyntaxKind`);
`OTHER` stands for every kind the assist never matches on. -/
inductive SyntaxKind where
  | NAME_REF
  | USE_ITEM
  | MODULE
  | SOURCE_FILE
  | PATH
  | ITEM_LIST
  | VISIBILITY
  | IDENT
  | OTHER
deriving DecidableEq, Repr

/-- A syntax node: a kind, its source text, and its child nodes
(`ra_syntax::SyntaxNode`). -/
inductive SyntaxNode where
  | mk (kind : SyntaxKind) (text : String) (children : List SyntaxNode)
deriving Repr

def SyntaxNode.kind : SyntaxNode → SyntaxKind
  | .mk k _ _ => k

def SyntaxNode.text : SyntaxNode → String
  | .mk _ t _ => t

def SyntaxNode.children : SyntaxNode → List SyntaxNode
  | .mk _ _ c => c

mutual

def SyntaxNode.beq : SyntaxNode → SyntaxNode → Bool
  | .mk k t c, .mk k' t' c' => k == k' && t == t' && SyntaxNode.beqList c c'

def SyntaxNode.beqList : List SyntaxNode → List SyntaxNode → Bool
  | [], [] => true
  | x :: xs, y :: ys => SyntaxNode.beq x y && SyntaxNode.beqList xs ys
  | _, _ => false

end

mutual

theorem SyntaxNode.beq_iff : ∀ a b : SyntaxNode, SyntaxNode.beq a b = true ↔ a = b
  | .mk k t c, .mk k' t' c' => by
    simp only [SyntaxNode.beq, Bool.and_eq_true, beq_iff_eq, SyntaxNode.mk.injEq, and_assoc]
    exact and_congr Iff.rfl (and_congr Iff.rfl (SyntaxNode.beqList_iff c c'))

theorem SyntaxNode.beqList_iff :
    ∀ a b : List SyntaxNode, SyntaxNode.beqList a b = true ↔ a = b
  | [], [] => by simp [SyntaxNode.beqList]
  | [], _ :: _ => by simp [SyntaxNode.beqList]
  | _ :: _, [] => by simp [SyntaxNode.beqList]
  | x :: xs, y :: ys => by
    simp only [SyntaxNode.beqList, Bool.and_eq_true, List.cons.injEq]
    exact and_congr (SyntaxNode.beq_iff x y) (SyntaxNode.beqList_iff xs ys)

end

instance : DecidableEq SyntaxNode :=
  fun a b => decidable_of_iff (SyntaxNode.beq a b = true) (SyntaxNode.beq_iff a b)

/-- A node or token under a cursor, together with its chain of parent nodes,
innermost first (`rowan::NodeOrToken`, i.e. `ra_syntax::SyntaxElement`). -/
inductive SyntaxElement where
  | ofNode (n : SyntaxNode) (parents : List SyntaxNode)
  | ofToken (kind : SyntaxKind) (text : String) (parents : List SyntaxNode)
deriving DecidableEq, Repr

/-- `SyntaxElement::ancestors`: for a node, the node itself followed by its
parents; for a token, the parents only. -/
def SyntaxElement.ancestors : SyntaxElement → List SyntaxNode
  | .ofNode n ps => n :: ps
  | .ofToken _ _ ps => ps

def SyntaxElement.kind : SyntaxElement → SyntaxKind
  | .ofNode n _ => n.kind
  | .ofToken k _ _ => k

/-- `SyntaxElement::as_node`. -/
def SyntaxElement.asNode : SyntaxElement → Option SyntaxNode
  | .ofNode n _ => some n
  | .ofToken _ _ _ => none

/-- `SyntaxElement::parent`. -/
def SyntaxElement.parent : SyntaxElement → Option SyntaxNode
  | .ofNode _ (p :: _) => some p
  | .ofToken _ _ (p :: _) => some p
  | _ => none

/-- A syntax node together with its chain of parent nodes, innermost first;
`node.ancestors()` on a `SyntaxNode` yields the node itself first. -/
structure FocusedNode where
  node : SyntaxNode
  parents : List SyntaxNode
deriving DecidableEq, Repr

def FocusedNode.ancestors (p : FocusedNode) : List SyntaxNode :=
  p.node :: p.parents

/-- `ast::Module::cast`. -/
def Module.cast (n : SyntaxNode) : Option SyntaxNode :=
  if n.kind = .MODULE then some n else none

/-- `ast::Module::item_list`: the first `ITEM_LIST` child, when present. -/
def Module.item_list (m : SyntaxNode) : Option SyntaxNode :=
  m.children.find? (fun c => c.kind == .ITEM_LIST)

/-- `ast::SourceFile::cast`. -/
def SourceFile.cast (n : SyntaxNode) : Option SyntaxNode :=
  if n.kind = .SOURCE_FILE then some n else none

/-- `ast::Path::cast`. -/
def Path.cast (n : SyntaxNode) : Option SyntaxNode :=
  if n.kind = .PATH then some n else none

/-- `ast::NameRef::cast`. -/
def NameRef.cast (n : SyntaxNode) : Option SyntaxNode :=
  if n.kind = .NAME_REF then some n else none

/-- `hir::PathKind` (the variants relevant to import paths). -/
inductive PathKind where
  | Plain
  | Super (count : Nat)
  | Crate
  | Abs
deriving DecidableEq, Repr

/-- `hir::ModPath`: a path kind plus an ordered segment sequence.  Its derived
equality (used by the `HashSet` in `auto_import`) is componentwise: same kind
and same segment sequence. -/
structure ModPath where
  kind : PathKind
  segments : List String
deriving DecidableEq, Repr

/-- Modelled from the spec: the rendered string form of an import path
(`ModPath`'s `Display`, which lives outside `src/`) — the kind's prefix
followed by the segments joined with `::`. -/
def PathKind.prefixText : PathKind → String
  | .Plain => ""
  | .Super n => String.join (List.replicate n "super::")
  | .Crate => "crate::"
  | .Abs => "::"

/-- `import.to_string()`: the rendered form of a `ModPath`. -/
def ModPath.render (p : ModPath) : String :=
  p.kind.prefixText ++ String.intercalate "::" p.segments

/-- `hir::ModuleDef` identities as returned by the symbol index; the assist
treats them opaquely, so an abstract identifier suffices. -/
abbrev ModuleDef := Nat

/-- A semantic module (`hir::Module`), treated opaquely by the assist. -/
abbrev HirModule := Nat

/-- The capabilities `auto_import` consumes from its `AssistCtx`, the
semantic resolver and the `ImportsLocator`:
* `find_node_at_offset` — `ctx.find_node_at_offset::<ast::Path>()`;
* `covering_element` — `ctx.covering_element()`;
* `analyzer_module pos` — `ctx.source_analyzer(&pos, None).module()`;
* `resolve_path pos p` — `source_analyzer.resolve_path(db, &p).is_some()`;
* `find_use_path m d` — `m.find_use_path(ctx.db, d)`;
* `find_imports name` — `imports_locator.find_imports(name)`. -/
structure AssistCtx where
  find_node_at_offset : Option FocusedNode
  covering_element : SyntaxElement
  analyzer_module : SyntaxNode → Option HirModule
  resolve_path : SyntaxNode → SyntaxNode → Bool
  find_use_path : HirModule → ModuleDef → Option ModPath
  find_imports : String → List ModuleDef

/-- `find_applicable_name_ref` from `auto_import.rs`: no name reference when
inside a `USE_ITEM`; otherwise the element itself when it is a `NAME_REF`,
or its parent when the parent is one. -/
def find_applicable_name_ref (element : SyntaxElement) : Option SyntaxNode :=
  if (element.ancestors.find? (fun ancestor => ancestor.kind == .USE_ITEM)).isSome then
    none
  else if element.kind = .NAME_REF then
    element.asNode.bind NameRef.cast
  else
    match element.parent with
    | none => none
    | some parent => if parent.kind = .NAME_REF then NameRef.cast parent else none

/-- Lines 36–43 of `auto_import.rs`: the insertion position is the item list
of the nearest `ast::Module` ancestor when that module has one; otherwise the
containing `ast::SourceFile`, whose absence aborts (`?`). -/
def scopePosition (path : FocusedNode) : Option SyntaxNode :=
  let module := path.ancestors.findSome? Module.cast
  match module.bind Module.item_list with
  | some item_list => some item_list
  | none => path.ancestors.findSome? SourceFile.cast

/-- The tail of the candidate pipeline,
`.filter(|p| !p.segments.is_empty()).take(20).collect::<HashSet<_>>()`.
The `HashSet` is modelled as the list with duplicate `ModPath`s removed
(`List.dedup`, which uses the derived componentwise equality, exactly as the
`HashSet` does): it has the same elements and the same cardinality; the
`HashSet`'s iteration order is unspecified in the source and no property
proved below depends on the order of this list. -/
def candidateSet (paths : List ModPath) : List ModPath :=
  ((paths.filter (fun use_path => !use_path.segments.isEmpty)).take 20).dedup

/-- The textual edit produced for one alternative: modelled from the spec as
`build_import_edit(anchor, reference_node, import_paths) -> TextEdit` (the
edit/merge engine is the crate-root helper `auto_import_text_edit`, outside
`src/`; merging policy belongs to it, so the edit is recorded as its inputs). -/
structure TextEdit where
  anchor : SyntaxNode
  ref_node : SyntaxNode
  import_paths : List String
deriving DecidableEq, Repr

/-- Modelled from the spec: `auto_import_text_edit(position, path, &[target],
edit_builder)` builds the textual edit for one import into the action's edit
builder. -/
def auto_import_text_edit (position : SyntaxNode) (path : SyntaxNode)
    (target : List String) : TextEdit :=
  { anchor := position, ref_node := path, import_paths := target }

/-- Modelled from the spec: `ActionBuilder` (from `assist_ctx.rs`, outside
`src/`) accumulates a label and a built textual edit; `edit = none` means the
edit builder is still empty. -/
structure ActionBuilder where
  label : Option String
  edit : Option TextEdit
deriving DecidableEq, Repr

def ActionBuilder.default : ActionBuilder :=
  { label := none, edit := none }

/-- `import_to_action` from `auto_import.rs`: set the label, then eagerly
build the textual edit into the builder via `auto_import_text_edit`. -/
def import_to_action (imp : String) (position : SyntaxNode) (path : SyntaxNode) :
    ActionBuilder :=
  let action_builder := ActionBuilder.default
  let action_builder := { action_builder with label := some ("Import `" ++ imp ++ "`") }
  { action_builder with edit := some (auto_import_text_edit position path [imp]) }

structure AssistId where
  id : String
deriving DecidableEq, Repr

/-- Modelled from the spec: the grouped action returned to the host — a stable
kind identifier, a short label, and the alternatives. -/
structure Assist where
  assist_id : AssistId
  group_label : String
  alternatives : List ActionBuilder
deriving DecidableEq, Repr

/-- Modelled from the spec: `AssistCtx::add_assist_group` (in `assist_ctx.rs`,
outside `src/`) wraps the alternatives produced by the closure as a grouped
action under a stable identifier; materialising the group runs the closure. -/
def add_assist_group (id : AssistId) (label : String)
    (f : Unit → List ActionBuilder) : Option Assist :=
  some { assist_id := id, group_label := label, alternatives := f () }

/-- The head of the candidate pipeline in `auto_import`:
`imports_locator.find_imports(&name).into_iter().filter_map(|module_def|
module_with_name_to_import.find_use_path(ctx.db, module_def))`. -/
def locatedPaths (ctx : AssistCtx) (module_with_name_to_import : HirModule)
    (name : String) : List ModPath :=
  (ctx.find_imports name).filterMap
    (fun module_def => ctx.find_use_path module_with_name_to_import module_def)

/-- `auto_import` from `auto_import.rs`, with each `?` / early `return None`
written as an explicit `match`/`if`.  `name_to_import.text` models
`find_applicable_name_ref(..)?.as_name().to_string()` (the `NAME_REF`'s
text). -/
def auto_import (ctx : AssistCtx) : Option Assist :=
  match ctx.find_node_at_offset with
  | none => none
  | some path =>
    match scopePosition path with
    | none => none
    | some position =>
      match ctx.analyzer_module position with
      | none => none
      | some module_with_name_to_import =>
        match ctx.covering_element.ancestors.findSome? Path.cast with
        | none => none
        | some path_to_import =>
          if ctx.resolve_path position path_to_import then none
          else
            match find_applicable_name_ref ctx.covering_element with
            | none => none
            | some name_to_import =>
              let proposed_imports := candidateSet
                (locatedPaths ctx module_with_name_to_import name_to_import.text)
              if proposed_imports.isEmpty then none
              else
                add_assist_group ⟨"auto_import"⟩ "auto import"
                  (fun _ => proposed_imports.map
                    (fun imp => import_to_action imp.render position path_to_import))

/-- The number of already-built textual edits among a list of alternatives. -/
def editComputations (alts : List ActionBuilder) : Nat :=
  (alts.filterMap (fun a => a.edit)).length

/-- Inversion principle for `auto_import`: a returned grouped action
determines the outcome of every pipeline stage and the shape of the
alternatives. -/
theorem auto_import_eq_some {ctx : AssistCtx} {a : Assist}
    (h : auto_import ctx = some a) :
    ∃ path position module_with_name_to_import path_to_import name_to_import,
      ctx.find_node_at_offset = some path ∧
      scopePosition path = some position ∧
      ctx.analyzer_module position = some module_with_name_to_import ∧
      ctx.covering_element.ancestors.findSome? Path.cast = some path_to_import ∧
      ctx.resolve_path position path_to_import = false ∧
      find_applicable_name_ref ctx.covering_element = some name_to_import ∧
      candidateSet (locatedPaths ctx module_with_name_to_import name_to_import.text) ≠ [] ∧
      a = { assist_id := ⟨"auto_import"⟩, group_label := "auto import",
            alternatives :=
              (candidateSet
                (locatedPaths ctx module_with_name_to_import name_to_import.text)).map
                (fun imp => import_to_action imp.render position path_to_import) } := by
  simp only [auto_import] at h
  split at h
  · exact absurd h (by simp)
  next path hpath =>
  split at h
  · exact absurd h (by simp)
  next position hposition =>
  split at h
  · exact absurd h (by simp)
  next module_with_name_to_import hmodule =>
  split at h
  · exact absurd h (by simp)
  next path_to_import hpti =>
  split at h
  · exact absurd h (by simp)
  next hres =>
  split at h
  · exact absurd h (by simp)
  next name_to_import hname =>
  split at h
  · exact absurd h (by simp)
  next hne =>
  simp only [add_assist_group, Option.some.injEq] at h
  exact ⟨path, position, module_with_name_to_import, path_to_import, name_to_import,
    hpath, hposition, hmodule, hpti, Bool.not_eq_true _ ▸ Bool.of_not_eq_true hres,
    hname, fun hnil => hne (by simp [hnil]), h.symm⟩

/-! Concrete fixtures: a file containing an unresolved bare reference
`Debug`, with the cursor token on the identifier. -/

def nrNode : SyntaxNode := .mk .NAME_REF "Debug" []

def pathNode : SyntaxNode := .mk .PATH "Debug" [nrNode]

def fileNode : SyntaxNode := .mk .SOURCE_FILE "" [pathNode]

def coveringDebug : SyntaxElement := .ofToken .IDENT "Debug" [nrNode, pathNode, fileNode]

/-- A context in which the reference is unresolved and the index knows one
definition importable as `std::ops::Debug` (mirroring the fixture of the
`applicable_when_found_an_import` test). -/
def baseCtx : AssistCtx :=
  { find_node_at_offset := some ⟨pathNode, [fileNode]⟩
    covering_element := coveringDebug
    analyzer_module := fun _ => some 0
    resolve_path := fun _ _ => false
    find_use_path := fun _ _ => some ⟨.Plain, ["std", "ops", "Debug"]⟩
    find_imports := fun _ => [0] }

def assistBase : Assist :=
  { assist_id := ⟨"auto_import"⟩
    group_label := "auto import"
    alternatives := [import_to_action "std::ops::Debug" fileNode pathNode] }

/-- Sanity: on the base fixture the pipeline produces the single-alternative
grouped action, mirroring the `applicable_when_found_an_import` test. -/
theorem auto_import_baseCtx : auto_import baseCtx = some assistBase := rfl

/-- C2: for every reference whose path already resolves at the cursor (the
resolver returns a definition for the smallest path node covering the
cursor), `auto_import` returns no suggestion, for every possible result the
symbol index could return. -/
theorem auto_import_idempotence (ctx : AssistCtx) (path : FocusedNode)
    (position path_to_import : SyntaxNode)
    (h1 : ctx.find_node_at_offset = some path)
    (h2 : scopePosition path = some position)
    (h3 : ctx.covering_element.ancestors.findSome? Path.cast = some path_to_import)
    (h4 : ctx.resolve_path position path_to_import = true)
    (locator : String → List ModuleDef) :
    auto_import { ctx with find_imports := locator } = none := by
  cases hmod : ctx.analyzer_module position with
  | none => simp [auto_import, h1, h2, hmod]
  | some m => simp [auto_import, h1, h2, hmod, h3, h4]

/-- C2 witness: a context whose reference resolves produces no suggestion
even though the index knows candidates. -/
theorem auto_import_idempotence_witness :
    auto_import { { baseCtx with resolve_path := fun _ _ => true } with
      find_imports := fun _ => [0, 1, 2] } = none :=
  auto_import_idempotence { baseCtx with resolve_path := fun _ _ => true }
    ⟨pathNode, [fileNode]⟩ fileNode pathNode rfl rfl rfl rfl (fun _ => [0, 1, 2])

/-- C3: for every cursor element that has an ancestor of kind `USE_ITEM`,
the result is no suggestion, even when the identifier is unresolved and
matching definitions exist in the index. -/
theorem auto_import_use_item_suppression (ctx : AssistCtx)
    (h : ∃ ancestor ∈ ctx.covering_element.ancestors, ancestor.kind = .USE_ITEM) :
    auto_import ctx = none := by
  have hfanr : find_applicable_name_ref ctx.covering_element = none := by
    obtain ⟨anc, hmem, hkind⟩ := h
    have hsome : (ctx.covering_element.ancestors.find?
        (fun a => a.kind == .USE_ITEM)).isSome := by
      rw [List.find?_isSome]
      exact ⟨anc, hmem, by simp [hkind]⟩
    simp [find_applicable_name_ref, hsome]
  simp only [auto_import]
  split
  · rfl
  split
  · rfl
  split
  · rfl
  split
  · rfl
  split
  · rfl
  rw [hfanr]

def useItemNode : SyntaxNode := .mk .USE_ITEM "use Debug;" [nrNode]

/-- C3 witness: a cursor token inside a `use` item yields no suggestion even
though the reference is unresolved and the index knows a candidate. -/
theorem auto_import_use_item_suppression_witness :
    auto_import { baseCtx with
      covering_element := .ofToken .IDENT "Debug" [nrNode, useItemNode, fileNode] } = none :=
  auto_import_use_item_suppression
    { baseCtx with
      covering_element := .ofToken .IDENT "Debug" [nrNode, useItemNode, fileNode] }
    ⟨useItemNode, by decide, rfl⟩

/-- C7: when the symbol index returns no definitions, or every returned
definition yields no import path or only one with an empty segment sequence,
`auto_import` returns no suggestion (not an empty grouped action). -/
theorem auto_import_emptiness (ctx : AssistCtx)
    (h : ∀ (hm : HirModule) (name : String) (p : ModPath),
      p ∈ locatedPaths ctx hm name → p.segments = []) :
    auto_import ctx = none := by
  have hcs : ∀ (hm : HirModule) (s : String), candidateSet (locatedPaths ctx hm s) = [] := by
    intro hm s
    have hfil : (locatedPaths ctx hm s).filter (fun use_path => !use_path.segments.isEmpty)
        = [] := by
      rw [List.filter_eq_nil_iff]
      intro p hp
      simp [h hm s p hp]
    simp [candidateSet, hfil]
  simp only [auto_import]
  split
  · rfl
  split
  · rfl
  split
  · rfl
  split
  · rfl
  split
  · rfl
  split
  · rfl
  simp [hcs]

/-- C7 witness: an index returning no definitions produces no suggestion. -/
theorem auto_import_emptiness_witness :
    auto_import { baseCtx with find_imports := fun _ => [] } = none :=
  auto_import_emptiness { baseCtx with find_imports := fun _ => [] }
    (by intro hm name p hp; simp [locatedPaths] at hp)

/-- C8: every member of the candidate set — the value the alternatives are
built from — has a non-empty segment sequence (empty-segment paths are
discarded by the filter that runs before `take(20)` and the dedup). -/
theorem candidateSet_segments_nonempty (paths : List ModPath) (p : ModPath)
    (h : p ∈ candidateSet paths) : p.segments ≠ [] := by
  have h1 : p ∈ (paths.filter (fun q => !q.segments.isEmpty)).take 20 :=
    List.mem_dedup.mp h
  have h2 : p ∈ paths.filter (fun q => !q.segments.isEmpty) :=
    (List.take_sublist _ _).mem h1
  have h3 := (List.mem_filter.mp h2).2
  simpa using h3

/-- C8 witness: a concrete candidate-set member has non-empty segments. -/
theorem candidateSet_segments_nonempty_witness :
    (⟨.Plain, ["std"]⟩ : ModPath) ∈ candidateSet [⟨.Plain, ["std"]⟩] ∧
    (⟨.Plain, ["std"]⟩ : ModPath).segments ≠ [] :=
  ⟨by decide, candidateSet_segments_nonempty [⟨.Plain, ["std"]⟩] ⟨.Plain, ["std"]⟩ (by decide)⟩

/-- C9: when the path node at the cursor has no `SOURCE_FILE` ancestor and no
enclosing module exposing an item list, the whole pipeline aborts with no
suggestion. -/
theorem auto_import_detached_tree (ctx : AssistCtx) (path : FocusedNode)
    (h1 : ctx.find_node_at_offset = some path)
    (h2 : ∀ a ∈ path.ancestors, a.kind ≠ .SOURCE_FILE)
    (h3 : ∀ a ∈ path.ancestors, a.kind = .MODULE → Module.item_list a = none) :
    auto_import ctx = none := by
  have hsf : path.ancestors.findSome? SourceFile.cast = none := by
    rw [List.findSome?_eq_none_iff]
    intro a ha
    simp [SourceFile.cast, h2 a ha]
  have hscope : scopePosition path = none := by
    unfold scopePosition
    cases hmod : path.ancestors.findSome? Module.cast with
    | none => simpa using hsf
    | some m =>
      obtain ⟨a, ha, hcast⟩ := List.exists_of_findSome?_eq_some hmod
      have hk : a.kind = .MODULE := by
        by_contra hk
        simp [Module.cast, hk] at hcast
      have hma : m = a := by
        rw [Module.cast, if_pos hk] at hcast
        exact (Option.some.inj hcast).symm
      simp [Option.bind, hma, h3 a ha hk, hsf]
  simp [auto_import, h1, hscope]

/-- C9 witness: a detached path node (no ancestors at all beyond itself)
yields no suggestion. -/
theorem auto_import_detached_tree_witness :
    auto_import { baseCtx with find_node_at_offset := some ⟨pathNode, []⟩ } = none :=
  auto_import_detached_tree { baseCtx with find_node_at_offset := some ⟨pathNode, []⟩ }
    ⟨pathNode, []⟩ rfl (by decide) (by decide)

/-- C10: every returned grouped action is built from the single scope anchor
and the single covering path computed once for the invocation — each
alternative is `import_to_action` applied to those two nodes, so all
alternatives share the same edit anchor and reference node and differ only
in the rendered import path (and hence label). -/
theorem auto_import_shared_anchor (ctx : AssistCtx) (assist : Assist)
    (h : auto_import ctx = some assist) :
    ∃ (path : FocusedNode) (position path_to_import : SyntaxNode),
      ctx.find_node_at_offset = some path ∧
      scopePosition path = some position ∧
      ctx.covering_element.ancestors.findSome? Path.cast = some path_to_import ∧
      ∀ action ∈ assist.alternatives, ∃ imp : ModPath,
        action = import_to_action imp.render position path_to_import ∧
        action.edit = some (auto_import_text_edit position path_to_import [imp.render]) := by
  obtain ⟨p, pos, m, pti, nr, e1, e2, e3, e4, e5, e6, e7, e8⟩ := auto_import_eq_some h
  refine ⟨p, pos, pti, e1, e2, e4, ?_⟩
  intro action ha
  rw [e8] at ha
  simp only [List.mem_map] at ha
  obtain ⟨imp, hmem, himp⟩ := ha
  exact ⟨imp, himp.symm, by rw [← himp]; rfl⟩

/-- C10 witness: the theorem applied to the base fixture. -/
theorem auto_import_shared_anchor_witness :
    ∃ (path : FocusedNode) (position path_to_import : SyntaxNode),
      baseCtx.find_node_at_offset = some path ∧
      scopePosition path = some position ∧
      baseCtx.covering_element.ancestors.findSome? Path.cast = some path_to_import ∧
      ∀ action ∈ assistBase.alternatives, ∃ imp : ModPath,
        action = import_to_action imp.render position path_to_import ∧
        action.edit = some (auto_import_text_edit position path_to_import [imp.render]) :=
  auto_import_shared_anchor baseCtx assistBase rfl

/-- A context in which the index yields 21 distinct definitions, all
importable, where the second definition's import path coincides with the
first's: the code truncates to 20 *before* deduplicating, so only 19
alternatives survive. -/
def exCtx1 : AssistCtx :=
  { baseCtx with
    find_imports := fun _ => 0 :: 100 :: List.range' 1 19
    find_use_path := fun _ d =>
      if 100 ≤ d then some ⟨.Plain, ["m", "0"]⟩
      else some ⟨.Plain, ["m", toString d]⟩ }

/-- C1 counterexample: the index yields 21 importable candidates (each with a
non-empty import path), yet the returned grouped action has 19 alternatives,
not 20 — because `auto_import` applies `take(20)` first and collects into the
deduplicating `HashSet` afterwards. -/
theorem auto_import_bounding_cex :
    20 < ((locatedPaths exCtx1 0 "Debug").filter (fun p => !p.segments.isEmpty)).length ∧
    (auto_import exCtx1).map (fun a => a.alternatives.length) = some 19 ∧
    (19 : Nat) ≠ 20 :=
  ⟨by decide, rfl, by decide⟩

/-- C1 (amended): the candidate list is truncated to the first 20 importable
entries and only then deduplicated, so a returned grouped action has at most
20 alternatives, with exactly 20 precisely when at least 20 importable
candidates exist and the first 20 of them are pairwise distinct. -/
theorem auto_import_bounding_amended (ctx : AssistCtx) (assist : Assist)
    (hm : HirModule) (name_to_import : SyntaxNode) (path : FocusedNode)
    (position : SyntaxNode)
    (h : auto_import ctx = some assist)
    (h1 : ctx.find_node_at_offset = some path)
    (h2 : scopePosition path = some position)
    (h3 : ctx.analyzer_module position = some hm)
    (h4 : find_applicable_name_ref ctx.covering_element = some name_to_import) :
    assist.alternatives.length =
      (candidateSet (locatedPaths ctx hm name_to_import.text)).length ∧
    assist.alternatives.length ≤ 20 ∧
    ((((locatedPaths ctx hm name_to_import.text).filter
        (fun p => !p.segments.isEmpty)).take 20).Nodup →
      20 ≤ ((locatedPaths ctx hm name_to_import.text).filter
        (fun p => !p.segments.isEmpty)).length →
      assist.alternatives.length = 20) := by
  obtain ⟨p', pos', m', pti', nr', e1, e2, e3, e4, e5, e6, e7, e8⟩ := auto_import_eq_some h
  obtain rfl : path = p' := Option.some.inj (h1.symm.trans e1)
  obtain rfl : position = pos' := Option.some.inj (h2.symm.trans e2)
  obtain rfl : hm = m' := Option.some.inj (h3.symm.trans e3)
  obtain rfl : name_to_import = nr' := Option.some.inj (h4.symm.trans e6)
  subst e8
  refine ⟨by simp, ?_, ?_⟩
  · simp only [List.length_map, candidateSet]
    exact le_trans ((List.dedup_sublist _).length_le) (List.length_take_le _ _)
  · intro hnd hge
    simp only [List.length_map, candidateSet]
    rw [List.dedup_eq_self.mpr hnd, List.length_take]
    exact Nat.min_eq_left hge

/-- A context with 21 importable candidates whose paths are pairwise
distinct. -/
def exCtx1w : AssistCtx :=
  { baseCtx with
    find_imports := fun _ => List.range 21
    find_use_path := fun _ d => some ⟨.Plain, ["m", toString d]⟩ }

/-- C1 (amended) witness: with 21 pairwise-distinct importable candidates the
grouped action has exactly 20 alternatives. -/
theorem auto_import_bounding_amended_witness :
    ((auto_import exCtx1w).getD ⟨⟨""⟩, "", []⟩).alternatives.length = 20 :=
  (auto_import_bounding_amended exCtx1w ((auto_import exCtx1w).getD ⟨⟨""⟩, "", []⟩) 0
    nrNode ⟨pathNode, [fileNode]⟩ fileNode (by rfl) rfl rfl rfl rfl).2.2
    (by decide) (by decide)

/-- A context in which the index returns 22 definitions: 20 with pairwise
distinct import paths followed by two distinct definitions (`100` and `101`)
whose import paths render identically (`zz`). -/
def exCtx4 : AssistCtx :=
  { baseCtx with
    find_imports := fun _ => List.range 20 ++ [100, 101]
    find_use_path := fun _ d =>
      if 100 ≤ d then some ⟨.Plain, ["zz"]⟩ else some ⟨.Plain, ["m", toString d]⟩ }

/-- C4 counterexample: the index returns a pair of definitions whose import
paths render identically, a grouped action is returned, yet it contains *no*
alternative for that rendered path — both members of the pair fall beyond
the `take(20)` truncation, which runs before the deduplicating collect. -/
theorem auto_import_dedup_cex :
    (100 : ModuleDef) ∈ exCtx4.find_imports "Debug" ∧
    (101 : ModuleDef) ∈ exCtx4.find_imports "Debug" ∧
    exCtx4.find_use_path 0 100 = some ⟨.Plain, ["zz"]⟩ ∧
    exCtx4.find_use_path 0 101 = some ⟨.Plain, ["zz"]⟩ ∧
    (auto_import exCtx4).map
      (fun a => (a.alternatives.filter
        (fun act => act.label == some "Import `zz`")).length) = some 0 :=
  ⟨by decide, by decide, rfl, rfl, rfl⟩

/-- C4 (amended): the candidate set never holds two entries with the same
rendered path (same kind and segment sequence) — the grouped action has at
most one alternative per rendered path — and it holds exactly one when the
path survives the truncation to the first 20 importable entries. -/
theorem candidateSet_dedup_amended (paths : List ModPath) (p : ModPath) :
    (candidateSet paths).count p ≤ 1 ∧
    (p ∈ (paths.filter (fun q => !q.segments.isEmpty)).take 20 →
      (candidateSet paths).count p = 1) := by
  constructor
  · exact List.nodup_iff_count_le_one.mp (List.nodup_dedup _) p
  · intro hp
    rw [candidateSet, List.count_dedup]
    simp [hp]

/-- C4 (amended) witness: two render-equal paths collapse to one candidate. -/
theorem candidateSet_dedup_amended_witness :
    (candidateSet [⟨.Plain, ["a"]⟩, ⟨.Plain, ["a"]⟩]).count ⟨.Plain, ["a"]⟩ = 1 :=
  (candidateSet_dedup_amended [⟨.Plain, ["a"]⟩, ⟨.Plain, ["a"]⟩] ⟨.Plain, ["a"]⟩).2
    (by decide)

/-- A context with two importable candidates with distinct paths. -/
def exCtx5 : AssistCtx :=
  { baseCtx with
    find_imports := fun _ => [0, 1]
    find_use_path := fun _ d => some ⟨.Plain, ["m", toString d]⟩ }

/-- C5 counterexample: materialising the group already computes the textual
edit of *every* alternative — here both of the two alternatives carry a built
edit although no alternative has been picked — contradicting the claim that
edit computation occurs only for the picked alternative. -/
theorem auto_import_lazy_cex :
    (auto_import exCtx5).map
      (fun a => (a.alternatives.length, editComputations a.alternatives)) = some (2, 2) ∧
    (2 : Nat) ≠ 0 :=
  ⟨rfl, by decide⟩

/-- C5 (amended): edit computation is deferred only to the materialisation of
the group: when the grouped action is materialised, `import_to_action` has
built one textual edit for every alternative, picked or not. -/
theorem auto_import_eager_edits (ctx : AssistCtx) (assist : Assist)
    (h : auto_import ctx = some assist) :
    editComputations assist.alternatives = assist.alternatives.length ∧
    ∀ action ∈ assist.alternatives, action.edit.isSome = true := by
  obtain ⟨p, pos, m, pti, nr, e1, e2, e3, e4, e5, e6, e7, e8⟩ := auto_import_eq_some h
  subst e8
  constructor
  · show (List.filterMap _ (List.map _ _)).length = _
    rw [List.filterMap_map]
    have hfm : ∀ l : List ModPath,
        l.filterMap ((fun a : ActionBuilder => a.edit) ∘
          (fun imp : ModPath => import_to_action imp.render pos pti)) =
        l.map (fun imp => auto_import_text_edit pos pti [imp.render]) := by
      intro l
      induction l with
      | nil => rfl
      | cons x xs ih =>
        have hx : ((fun a : ActionBuilder => a.edit) ∘
            (fun imp : ModPath => import_to_action imp.render pos pti)) x =
            some (auto_import_text_edit pos pti [x.render]) := rfl
        simp only [List.filterMap_cons, hx, List.map_cons, ih]
    rw [hfm]
    simp
  · intro action ha
    simp only [List.mem_map] at ha
    obtain ⟨imp, hmem, himp⟩ := ha
    rw [← himp]
    rfl

def assist5 : Assist :=
  { assist_id := ⟨"auto_import"⟩
    group_label := "auto import"
    alternatives := [import_to_action "m::0" fileNode pathNode,
                     import_to_action "m::1" fileNode pathNode] }

/-- C5 (amended) witness: both alternatives of the two-candidate fixture
carry a built edit at materialisation. -/
theorem auto_import_eager_edits_witness :
    editComputations assist5.alternatives = assist5.alternatives.length :=
  (auto_import_eager_edits exCtx5 assist5 rfl).1

/-- The anchor as claim C6 words it: the item-list node of the nearest
enclosing module declaration *that exposes an item list*; the root of the
containing source file only when no such module exists among the ancestors.
(This definition follows the claim's words, for comparison with the
program's `scopePosition`.) -/
def anchorSpec (path : FocusedNode) : Option SyntaxNode :=
  match path.ancestors.findSome? (fun n => (Module.cast n).bind Module.item_list) with
  | some item_list => some item_list
  | none => path.ancestors.findSome? SourceFile.cast

/-! A path inside the visibility of `pub(in …) mod inner;`, where `inner`
(the nearest module) has no item list but the outer module does. -/

def pathNode6 : SyntaxNode := .mk .PATH "x" []

def visNode6 : SyntaxNode := .mk .VISIBILITY "pub(in x)" [pathNode6]

def innerMod6 : SyntaxNode := .mk .MODULE "inner" [visNode6]

def outerIL6 : SyntaxNode := .mk .ITEM_LIST "" [innerMod6]

def outerMod6 : SyntaxNode := .mk .MODULE "outer" [outerIL6]

def file6 : SyntaxNode := .mk .SOURCE_FILE "" [outerMod6]

def focused6 : FocusedNode := ⟨pathNode6, [visNode6, innerMod6, outerIL6, outerMod6, file6]⟩

/-- C6 counterexample: for a path whose nearest module ancestor has no item
list while an outer module does, the code anchors at the file root, not at
the outer module's item list as the claim requires. -/
theorem scopePosition_anchor_cex :
    scopePosition focused6 = some file6 ∧
    anchorSpec focused6 = some outerIL6 ∧
    scopePosition focused6 ≠ anchorSpec focused6 :=
  ⟨rfl, rfl, by decide⟩

/-- The anchor as the code computes it, worded per the amended claim: the
item list of the nearest enclosing module declaration when that module
itself exposes one; otherwise — even when an outer module exposes an item
list — the root node of the containing source file. -/
def anchorAmended (path : FocusedNode) : Option SyntaxNode :=
  match path.ancestors.findSome? Module.cast with
  | some m =>
    match Module.item_list m with
    | some item_list => some item_list
    | none => path.ancestors.findSome? SourceFile.cast
  | none => path.ancestors.findSome? SourceFile.cast

/-- C6 (amended): the insertion anchor is the item list of the *nearest*
enclosing module declaration when that module exposes one, and otherwise the
root node of the containing source file, regardless of outer modules. -/
theorem scopePosition_eq_anchorAmended (path : FocusedNode) :
    scopePosition path = anchorAmended path := by
  unfold scopePosition anchorAmended
  cases path.ancestors.findSome? Module.cast with
  | none => rfl
  | some m =>
    cases Module.item_list m with
    | none => rfl
    | some item_list => rfl

end AutoImport
